import Mathlib

/-!
Shallow embedding of the AIDA64 shared-memory sensor module
(`library/sensors/sensors_aida64.py`).

Python floats obtained from `float(...)` on sensor value strings are
modelled by `PyF`: either the NaN sentinel or an exact rational.  The
builtin `float` on strings is modelled for finite decimal literals
(optional sign, digits, optional fractional part); payload values in the
repository's sensor table are decimal numerals of this shape.

XML payloads are modelled after the `xml.etree.ElementTree` view the
parser actually uses: a list of sibling elements, each with a tag and a
list of child elements carrying optional text (`ElementTree` exposes an
empty element's text as `None`).

Python exceptions that can escape a function are modelled with `Except`;
a function that the source makes total (every exception caught) is given
a plain total type.  The process-wide globals `_sensor_cache` /
`_cache_valid` are threaded explicitly as a `CacheSt` value.
-/

set_option autoImplicit false

namespace Aida64

/-- Decidable equality on `Except`, used to evaluate modelled functions
whose Python originals can raise. -/
instance {ε α : Type} [DecidableEq ε] [DecidableEq α] : DecidableEq (Except ε α) := fun a b =>
  match a, b with
  | .error e, .error f =>
    if h : e = f then .isTrue (congrArg Except.error h)
    else .isFalse (fun he => h (Except.error.inj he))
  | .error _, .ok _ => .isFalse Except.noConfusion
  | .ok _, .error _ => .isFalse Except.noConfusion
  | .ok x, .ok y =>
    if h : x = y then .isTrue (congrArg Except.ok h)
    else .isFalse (fun he => h (Except.ok.inj he))

/-- Python exception kinds that can escape the functions modelled here. -/
inductive PyErr where
  | zeroDivisionError
  | attributeError
  | typeError
  deriving DecidableEq, Repr

/-- Python float value as used by this module: the NaN sentinel (`math.nan`)
or an exact numeric value. -/
inductive PyF where
  | nan
  | num (q : ℚ)
  deriving DecidableEq, Repr

/-- The test `math.isnan`. -/
def PyF.isnan : PyF → Bool
  | .nan => true
  | .num _ => false

/-- Python float addition restricted to this module's uses; NaN propagates. -/
def pyAdd : PyF → PyF → PyF
  | .num a, .num b => .num (a + b)
  | _, _ => .nan

/-- Python float multiplication; NaN propagates. -/
def pyMul : PyF → PyF → PyF
  | .num a, .num b => .num (a * b)
  | _, _ => .nan

/-- Python float division: dividing by the float `0.0` raises
`ZeroDivisionError` whatever the numerator; otherwise NaN propagates. -/
def pyDiv : PyF → PyF → Except PyErr PyF
  | _, .num 0 => .error .zeroDivisionError
  | .nan, _ => .ok .nan
  | _, .nan => .ok .nan
  | .num a, .num b => .ok (.num (a / b))

/-- Python `int()` truncation toward zero of a rational. -/
def pyTrunc (q : ℚ) : ℤ := Int.tdiv q.num (q.den : ℤ)

/-- Numeric value of a list of decimal digit characters. -/
def natFromDigits (l : List Char) : ℕ :=
  l.foldl (fun n c => 10 * n + (c.toNat - 48)) 0

/-- Python `float(s)` on finite decimal literals: optional sign, integer
digits, optional `.` and fraction digits; `none` models `ValueError`. -/
def pyFloatOfString (s : String) : Option ℚ :=
  let cs := s.data
  let signRest : ℚ × List Char :=
    match cs with
    | '-' :: t => (-1, t)
    | '+' :: t => (1, t)
    | t => (1, t)
  let sign := signRest.1
  let rest := signRest.2
  let ip := rest.takeWhile Char.isDigit
  let rest2 := rest.dropWhile Char.isDigit
  match rest2 with
  | [] => if ip.isEmpty then none else some (sign * (natFromDigits ip : ℚ))
  | '.' :: fp =>
    if fp.all Char.isDigit && !(ip.isEmpty && fp.isEmpty) then
      some (sign * ((natFromDigits ip : ℚ) + (natFromDigits fp : ℚ) / (10 : ℚ) ^ fp.length))
    else none
  | _ => none

/-- Python `str(value)` where `value : Option String` holds an element's
text; `str(None)` is the string `"None"`. -/
def pyStr : Option String → String
  | some s => s
  | none => "None"

/-- The check `a == b` on chars lifted to a prefix test on char lists. -/
def listLeads : List Char → List Char → Bool
  | [], _ => true
  | _ :: _, [] => false
  | a :: as, b :: bs => a == b && listLeads as bs

/-- Substring containment on char lists (Python `needle in hay`). -/
def listHasSub (needle : List Char) : List Char → Bool
  | [] => listLeads needle []
  | c :: t => listLeads needle (c :: t) || listHasSub needle t

/-- Python substring test `needle in hay` on strings. -/
def strHasSub (hay needle : String) : Bool := listHasSub needle.data hay.data

/-- Python `s.startswith(pre)`. -/
def strStarts (s pre : String) : Bool := listLeads pre.data s.data

/-- Child element of a category element, as seen through `ElementTree`:
a tag and the element text (`none` when the element is empty). -/
structure ChildE where
  tag : String
  text : Option String
  deriving DecidableEq, Repr

/-- Top-level payload element (`sys`, `temp`, `fan`, `volt`, `pwr`, …). -/
structure Elem where
  tag : String
  children : List ChildE
  deriving DecidableEq, Repr

/-- `root.findall(tag)`: direct children with the given tag, in document
order. -/
def findall (elems : List Elem) (tag : String) : List Elem :=
  elems.filter (fun e => e.tag == tag)

/-- `elem.find(tag)`: first child with the given tag, if any. -/
def Elem.find (e : Elem) (tag : String) : Option ChildE :=
  e.children.find? (fun c => c.tag == tag)

/-- One entry of the parsed sensor table: the `'type'`, `'label'` and
`'value'` fields stored by the parser (label and value are element texts,
hence possibly `None`). -/
structure SensorRecord where
  type : String
  label : Option String
  value : Option String
  deriving DecidableEq, Repr

/-- Dict keys are `id_elem.text`, which is `None` for an empty id element. -/
abbrev Key := Option String

/-- The Python dict `sensors_data`, as an insertion-ordered association
list (CPython dict semantics: update in place, insertion appends). -/
abbrev Dict := List (Key × SensorRecord)

/-- Python dict assignment `d[k] = v`: replaces in place when the key is
present, appends otherwise. -/
def dictInsert (d : Dict) (k : Key) (v : SensorRecord) : Dict :=
  if d.any (fun p => p.1 == k) then
    d.map (fun p => if p.1 == k then (k, v) else p)
  else
    d ++ [(k, v)]

/-- Python dict lookup `d[k]` / `k in d` combined: the stored record, if
the key is present. -/
def dictLookup (d : Dict) (k : Key) : Option SensorRecord :=
  (d.find? (fun p => p.1 == k)).map Prod.snd

/-- One iteration body of the per-category loops: require the three child
fields `id`, `label`, `value`; a child missing any of them yields no
record. -/
def extractRec (tag : String) (e : Elem) : Option (Key × SensorRecord) :=
  match e.find "id", e.find "label", e.find "value" with
  | some i, some l, some v => some (i.text, ⟨tag, l.text, v.text⟩)
  | _, _, _ => none

/-- One of the five `for ... in root.findall(tag)` loops of
`read_aida64_shared_memory`, folded over the accumulating dict. -/
def parseCategory (elems : List Elem) (tag : String) (d : Dict) : Dict :=
  (findall elems tag).foldl (fun acc e =>
    match extractRec tag e with
    | some kv => dictInsert acc kv.1 kv.2
    | none => acc) d

/-- The full parse of a well-formed payload: the five category loops run
in the fixed source order `sys`, `temp`, `fan`, `volt`, `pwr`, building
`sensors_data` from an empty dict. -/
def parseTable (elems : List Elem) : Dict :=
  parseCategory elems "pwr"
    (parseCategory elems "volt"
      (parseCategory elems "fan"
        (parseCategory elems "temp"
          (parseCategory elems "sys" []))))

/-- Outcome of the shared-memory acquisition attempt, everything that can
happen before the five parsing loops run: the open/map failures
distinguished by the source and a payload that is not well-formed XML
(`ET.fromstring` raises), or the parsed sibling elements. -/
inductive Acq where
  | accessDenied
  | notFound
  | otherOsError (code : ℕ)
  | mapFail
  | malformedPayload
  | ok (elems : List Elem)
  deriving DecidableEq, Repr

/-- Whether the acquisition failed before a table could be built. -/
def Acq.failed : Acq → Bool
  | .ok _ => false
  | _ => true

/-- The process-wide globals `_sensor_cache` and `_cache_valid`. -/
structure CacheSt where
  table : Dict
  valid : Bool
  deriving DecidableEq, Repr

/-- `read_aida64_shared_memory`: on success stores the fresh table in the
cache, marks it valid and returns it; every failure is caught by the
enclosing `except`, which logs, sets `_cache_valid = False` (leaving
`_sensor_cache` as it was) and returns an empty dict. -/
def read_aida64_shared_memory (acq : Acq) (st : CacheSt) : Dict × CacheSt :=
  match acq with
  | .ok elems =>
    let sensors_data := parseTable elems
    (sensors_data, ⟨sensors_data, true⟩)
  | _ => ([], ⟨st.table, false⟩)

/-- `get_sensor_value(sensor_id)`: fresh acquisition cycle, then
`float(data[sensor_id]['value'])` guarded by `sensor_id in data`, with
`ValueError`/`TypeError` (non-numeric or `None` value) giving the default
`math.nan`. -/
def get_sensor_value (acq : Acq) (st : CacheSt) (sensor_id : String) : PyF × CacheSt :=
  let r := read_aida64_shared_memory acq st
  match dictLookup r.1 (some sensor_id) with
  | some srec =>
    match srec.value with
    | some s =>
      match pyFloatOfString s with
      | some q => (.num q, r.2)
      | none => (.nan, r.2)
    | none => (.nan, r.2)
  | none => (.nan, r.2)

/-- `get_sensor_string(sensor_id)`: fresh acquisition cycle, then
`str(data[sensor_id]['value'])` guarded by `sensor_id in data`, default
the empty string. -/
def get_sensor_string (acq : Acq) (st : CacheSt) (sensor_id : String) : String × CacheSt :=
  let r := read_aida64_shared_memory acq st
  match dictLookup r.1 (some sensor_id) with
  | some srec => (pyStr srec.value, r.2)
  | none => ("", r.2)

/-- `Cpu.percentage(interval)`: returns `get_sensor_value('SCPUUTI')`;
the `interval` argument is not used by the body. -/
def Cpu.percentage (interval : ℚ) (acq : Acq) (st : CacheSt) : PyF × CacheSt :=
  get_sensor_value acq st "SCPUUTI"

/-- The `for sensor_id, sensor_data in data.items()` loop of
`Cpu.frequency`: `sensor_id.startswith('SCC-')` raises `AttributeError`
on a `None` key; `'Clock' in sensor_data.get('label', '')` raises
`TypeError` when the stored label is `None`; `float` failures
(`ValueError`/`TypeError`) are caught and skip the record. -/
def collectFreqs : Dict → Except PyErr (List ℚ)
  | [] => .ok []
  | (k, srec) :: rest =>
    match k with
    | none => .error .attributeError
    | some s =>
      if strStarts s "SCC-" then
        match srec.label with
        | none => .error .typeError
        | some lab =>
          if strHasSub lab "Clock" then
            match srec.value.bind pyFloatOfString with
            | some q => (collectFreqs rest).map (fun l => q :: l)
            | none => collectFreqs rest
          else collectFreqs rest
      else collectFreqs rest

/-- Python `max(list)` over a non-empty list, seeded with the head. -/
def maxQ : ℚ → List ℚ → ℚ
  | m, [] => m
  | m, q :: t => maxQ (if q > m then q else m) t

/-- `Cpu.frequency()`: `SCPUCLK` when numeric, else the maximum of the
per-core `SCC-*` clock values collected from a second acquisition cycle,
else NaN. -/
def Cpu.frequency (acq : Acq) (st : CacheSt) : Except PyErr PyF × CacheSt :=
  let c := get_sensor_value acq st "SCPUCLK"
  if c.1.isnan = false then (.ok c.1, c.2)
  else
    let r := read_aida64_shared_memory acq c.2
    match collectFreqs r.1 with
    | .error e => (.error e, r.2)
    | .ok freqs =>
      match freqs with
      | [] => (.ok .nan, r.2)
      | q :: t => (.ok (.num (maxQ q t)), r.2)

/-- `Gpu.stats()`: load is always NaN; temperature from `TGPU1`; when
both `SUSEDVMEM` and `SFREEVMEM` are numeric the used-memory percentage
is `used_mem / total_mem * 100.0`, an unguarded float division. -/
def Gpu.stats (acq : Acq) (st : CacheSt) :
    Except PyErr (PyF × PyF × PyF × PyF × PyF) × CacheSt :=
  let load := PyF.nan
  let t := get_sensor_value acq st "TGPU1"
  let u := get_sensor_value acq t.2 "SUSEDVMEM"
  let f := get_sensor_value acq u.2 "SFREEVMEM"
  if u.1.isnan = false && f.1.isnan = false then
    let total := pyAdd u.1 f.1
    match pyDiv u.1 total with
    | .error e => (.error e, f.2)
    | .ok r => (.ok (load, pyMul r (.num 100), u.1, total, t.1), f.2)
  else
    (.ok (load, .nan, u.1, .nan, t.1), f.2)

/-- `Memory.virtual_used()`: `int(used_mb * 1024 * 1024)` bytes when
`SUSEDMEM` is numeric, else `0`. -/
def Memory.virtual_used (acq : Acq) (st : CacheSt) : ℤ × CacheSt :=
  let u := get_sensor_value acq st "SUSEDMEM"
  match u.1 with
  | .num q => (pyTrunc (q * 1024 * 1024), u.2)
  | .nan => (0, u.2)

/-! Analysis-side definitions: the record stream the parse consumes, and
predicates over parsed tables, used to state the frozen claims. -/

/-- The valid records of a payload, in the order the five category loops
encounter them (category-major, document order within a category): each
is a `(key, record)` pair from a child that has all three of `id`,
`label`, `value`. -/
def validRecords (elems : List Elem) : List (Key × SensorRecord) :=
  (findall elems "sys").filterMap (extractRec "sys") ++
  (findall elems "temp").filterMap (extractRec "temp") ++
  (findall elems "fan").filterMap (extractRec "fan") ++
  (findall elems "volt").filterMap (extractRec "volt") ++
  (findall elems "pwr").filterMap (extractRec "pwr")

/-- The single dict-assignment step shared by all five category loops. -/
def insStep (acc : Dict) (kv : Key × SensorRecord) : Dict :=
  dictInsert acc kv.1 kv.2

/-- Whether every key of a table is a non-null string. -/
def wellKeyed (d : Dict) : Bool := d.all (fun kv => kv.1.isSome)

/-- Whether every record whose id starts with `SCC-` has a non-null
label. -/
def sccLabelled (d : Dict) : Bool :=
  d.all (fun kv =>
    match kv.1 with
    | some s => !(strStarts s "SCC-") || kv.2.label.isSome
    | none => true)

/-- Spec-side description of the per-core clock candidates of
`Cpu.frequency`: the numeric values of records whose id starts with
`SCC-` and whose label contains the substring `Clock`, in table order. -/
def clockVals (d : Dict) : List ℚ :=
  d.filterMap (fun kv =>
    match kv.1 with
    | some s =>
      if strStarts s "SCC-" then
        match kv.2.label with
        | some lab =>
          if strHasSub lab "Clock" then kv.2.value.bind pyFloatOfString else none
        | none => none
      else none
    | none => none)

/-- A payload category element with the three child fields filled in. -/
def mkRec (tag i l v : String) : Elem :=
  ⟨tag, [⟨"id", some i⟩, ⟨"label", some l⟩, ⟨"value", some v⟩]⟩

/-- A fresh cache state (module load: empty dict, invalid). -/
def st0 : CacheSt := ⟨[], false⟩

/-- Payload whose video-memory sensors are present and parse to `0`. -/
def exZeroVMem : List Elem :=
  [mkRec "sys" "SUSEDVMEM" "Used Video Memory" "0",
   mkRec "sys" "SFREEVMEM" "Free Video Memory" "0",
   mkRec "temp" "TGPU1" "GPU Diode" "55"]

/-- Payload with one valid record, for observing the cache after a
subsequent failed cycle. -/
def exPrev : List Elem := [mkRec "sys" "SCPUUTI" "CPU Utilization" "42"]

/-- Payload with two valid records sharing one id. -/
def exDup : List Elem := [mkRec "sys" "A" "l1" "1", mkRec "sys" "A" "l2" "2"]

/-- Payload with two valid distinct records and one malformed record
(missing its `value` child). -/
def exMixed : List Elem :=
  [mkRec "sys" "A" "la" "1",
   ⟨"temp", [⟨"id", some "B"⟩, ⟨"label", some "lb"⟩]⟩,
   mkRec "temp" "C" "lc" "2"]

/-- Payload with one id duplicated across categories, the `pwr` element
coming first in document order and the `sys` element last. -/
def exCross : List Elem := [mkRec "pwr" "X" "lp" "1", mkRec "sys" "X" "ls" "2"]

/-- Payload whose single category element has an `id` child that is
present but empty (`ElementTree` exposes its text as `None`). -/
def exNullId : List Elem :=
  [⟨"sys", [⟨"id", none⟩, ⟨"label", some "x"⟩, ⟨"value", some "1"⟩]⟩]

/-- Payload with two per-core clock records and no `SCPUCLK`. -/
def exFreq : List Elem :=
  [mkRec "sys" "SCC-1-0" "CPU Core 1 Clock" "3200",
   mkRec "sys" "SCC-2-0" "CPU Core 2 Clock" "3600"]

/-- Payload with a direct package clock. -/
def exPkgClk : List Elem := mkRec "sys" "SCPUCLK" "CPU Clock" "3400" :: exFreq

/-- Payload with `SUSEDMEM` of 1024 megabytes. -/
def exMem : List Elem := [mkRec "sys" "SUSEDMEM" "Used Memory" "1024"]

/-! Helper lemmas about the dict built by the parsing loops. -/

/-- A category loop is the fold of the shared assignment step over the
valid records its `findall` produces. -/
theorem foldl_extract_eq (tag : String) (l : List Elem) (d : Dict) :
    l.foldl (fun acc e =>
      match extractRec tag e with
      | some kv => dictInsert acc kv.1 kv.2
      | none => acc) d
    = (l.filterMap (extractRec tag)).foldl insStep d := by
  induction l generalizing d with
  | nil => rfl
  | cons e t ih =>
    cases h : extractRec tag e with
    | none => simp [h, List.filterMap_cons_none h, ih]
    | some kv => simp [h, List.filterMap_cons_some h, ih, insStep]

/-- A category loop equals the fold over its extracted records. -/
theorem parseCategory_eq (elems : List Elem) (tag : String) (d : Dict) :
    parseCategory elems tag d = ((findall elems tag).filterMap (extractRec tag)).foldl insStep d :=
  foldl_extract_eq tag (findall elems tag) d

/-- The whole parse is the fold of the assignment step over the valid
records in category-major order. -/
theorem parseTable_eq (elems : List Elem) :
    parseTable elems = (validRecords elems).foldl insStep [] := by
  unfold parseTable validRecords
  rw [parseCategory_eq, parseCategory_eq, parseCategory_eq, parseCategory_eq, parseCategory_eq]
  rw [List.foldl_append, List.foldl_append, List.foldl_append, List.foldl_append]

/-- The `in` test of the dict matches key membership. -/
theorem any_key_iff (d : Dict) (k : Key) :
    (d.any (fun p => p.1 == k)) = true ↔ k ∈ d.map Prod.fst := by
  rw [List.any_eq_true]
  constructor
  · rintro ⟨p, hp, hb⟩
    exact List.mem_map.mpr ⟨p, hp, by simpa using hb⟩
  · intro h
    rcases List.mem_map.mp h with ⟨p, hp, he⟩
    exact ⟨p, hp, by simp [he]⟩

/-- Assignment with a fresh key appends the new entry. -/
theorem dictInsert_of_fresh (d : Dict) (k : Key) (v : SensorRecord)
    (h : k ∉ d.map Prod.fst) : dictInsert d k v = d ++ [(k, v)] := by
  unfold dictInsert
  rw [if_neg (fun hc => h ((any_key_iff d k).mp hc))]

/-- Replacement map for a key other than the one looked up changes no
match of the lookup. -/
theorem find?_map_key_ne (d : Dict) (k k' : Key) (v : SensorRecord) (hne : k ≠ k') :
    (d.map (fun p => if p.1 == k then (k, v) else p)).find? (fun p => p.1 == k')
      = d.find? (fun p => p.1 == k') := by
  induction d with
  | nil => rfl
  | cons p t ih =>
    rw [List.map_cons, List.find?_cons, List.find?_cons]
    by_cases hp : p.1 = k
    · have hf : (if (p.1 == k) = true then (k, v) else p) = (k, v) :=
        if_pos (by simp [hp])
      rw [hf]
      have h1 : ((k, v).1 == k') = false := by simp [hne]
      have h2 : (p.1 == k') = false := by simp [hp, hne]
      rw [h1, h2]
      exact ih
    · have hf : (if (p.1 == k) = true then (k, v) else p) = p :=
        if_neg (by simp [hp])
      rw [hf]
      cases hpk : (p.1 == k') with
      | true => rfl
      | false => exact ih

/-- Replacement map for the looked-up key finds the replaced entry when
the key is present. -/
theorem find?_map_key_eq (d : Dict) (k : Key) (v : SensorRecord)
    (h : (d.any (fun p => p.1 == k)) = true) :
    (d.map (fun p => if p.1 == k then (k, v) else p)).find? (fun p => p.1 == k)
      = some (k, v) := by
  induction d with
  | nil => simp at h
  | cons p t ih =>
    rw [List.map_cons, List.find?_cons]
    by_cases hp : p.1 = k
    · have hf : (if (p.1 == k) = true then (k, v) else p) = (k, v) :=
        if_pos (by simp [hp])
      rw [hf]
      have h1 : ((k, v).1 == k) = true := by simp
      rw [h1]
    · have hf : (if (p.1 == k) = true then (k, v) else p) = p :=
        if_neg (by simp [hp])
      rw [hf]
      have h2 : (p.1 == k) = false := by simp [hp]
      rw [h2]
      have ht : (t.any (fun p => p.1 == k)) = true := by
        rcases List.any_eq_true.mp h with ⟨x, hx, hbx⟩
        rcases List.mem_cons.mp hx with rfl | hxt
        · exact absurd (by simpa using hbx) hp
        · exact List.any_eq_true.mpr ⟨x, hxt, hbx⟩
      exact ih ht

/-- Python dict assignment followed by lookup: the assigned key now maps
to the new record, every other key is untouched. -/
theorem dictLookup_dictInsert (d : Dict) (k : Key) (v : SensorRecord) (k' : Key) :
    dictLookup (dictInsert d k v) k' = if k = k' then some v else dictLookup d k' := by
  unfold dictInsert dictLookup
  by_cases hany : (d.any (fun p => p.1 == k)) = true
  · rw [if_pos hany]
    by_cases hk : k = k'
    · subst hk
      rw [find?_map_key_eq d k v hany, if_pos rfl]
      rfl
    · rw [find?_map_key_ne d k k' v hk, if_neg hk]
  · rw [if_neg hany]
    rw [List.find?_append]
    have hd : d.find? (fun p => p.1 == k) = none := by
      rw [List.find?_eq_none]
      intro x hx hbx
      exact hany (List.any_eq_true.mpr ⟨x, hx, hbx⟩)
    by_cases hk : k = k'
    · subst hk
      simp [hd]
    · have : (List.find? (fun p => p.1 == k') [(k, v)]) = none := by
        simp [List.find?_cons, hk]
      simp [this, hk]

/-- Entries of the dict after an assignment come from the old dict or are
the assigned pair. -/
theorem mem_dictInsert (p : Key × SensorRecord) (d : Dict) (k : Key) (v : SensorRecord)
    (h : p ∈ dictInsert d k v) : p ∈ d ∨ p = (k, v) := by
  unfold dictInsert at h
  by_cases hc : (d.any (fun q => q.1 == k)) = true
  · rw [if_pos hc] at h
    rcases List.mem_map.mp h with ⟨q, hq, he⟩
    by_cases hqk : (q.1 == k) = true
    · right
      rw [← he, if_pos hqk]
    · left
      rw [← he, if_neg (by simp [hqk])]
      exact hq
  · rw [if_neg hc] at h
    rcases List.mem_append.mp h with h1 | h1
    · left; exact h1
    · right; simpa using h1

/-- Entries of the dict built by folding the assignment step come from
the seed dict or from the inserted stream. -/
theorem mem_foldl_insStep (l : List (Key × SensorRecord)) (d : Dict)
    (p : Key × SensorRecord) (h : p ∈ l.foldl insStep d) : p ∈ d ∨ p ∈ l := by
  induction l generalizing d with
  | nil => left; exact h
  | cons kv t ih =>
    rw [List.foldl_cons] at h
    rcases ih (insStep d kv) h with h1 | h1
    · rcases mem_dictInsert p d kv.1 kv.2 h1 with h2 | h2
      · left; exact h2
      · right; rw [h2]; simp
    · right; simp [h1]

/-- Folding the assignment step over records with pairwise-distinct fresh
keys appends them all, in order. -/
theorem foldl_insStep_keys (l : List (Key × SensorRecord)) (d : Dict)
    (hnd : (l.map Prod.fst).Nodup)
    (hdisj : ∀ k ∈ l.map Prod.fst, k ∉ d.map Prod.fst) :
    (l.foldl insStep d).map Prod.fst = d.map Prod.fst ++ l.map Prod.fst := by
  induction l generalizing d with
  | nil => simp
  | cons kv t ih =>
    have hk : kv.1 ∉ d.map Prod.fst := hdisj kv.1 (by simp)
    rw [List.foldl_cons]
    have hins : insStep d kv = d ++ [(kv.1, kv.2)] := dictInsert_of_fresh d kv.1 kv.2 hk
    rw [List.map_cons] at hnd
    have hnd' := hnd.of_cons
    have hhd : kv.1 ∉ t.map Prod.fst := (List.nodup_cons.mp hnd).1
    have hdisj' : ∀ k ∈ t.map Prod.fst, k ∉ (insStep d kv).map Prod.fst := by
      intro k hkt
      rw [hins, List.map_append]
      intro hmem
      rcases List.mem_append.mp hmem with h1 | h1
      · exact hdisj k (by simp [hkt]) h1
      · simp at h1
        exact hhd (h1 ▸ hkt)
    rw [ih (insStep d kv) hnd' hdisj', hins]
    simp

/-- Lookup in the dict left by the fold: the value of the last inserted
record with the key, else the seed dict's value. -/
theorem option_map_or {α β : Type} (f : α → β) (a b : Option α) :
    (a.or b).map f = (a.map f).or (b.map f) := by
  cases a <;> rfl

/-- Associativity of `Option.or`. -/
theorem option_or_assoc {α : Type} (a b c : Option α) :
    (a.or b).or c = a.or (b.or c) := by
  cases a <;> rfl

/-- Last-write-wins: looking up a key in the folded dict returns the last
record inserted under that key, falling back to the seed dict. -/
theorem dictLookup_foldl_insStep (l : List (Key × SensorRecord)) (d : Dict) (k : Key) :
    dictLookup (l.foldl insStep d) k
      = ((l.reverse.find? (fun kv => kv.1 == k)).map Prod.snd).or (dictLookup d k) := by
  induction l generalizing d with
  | nil => simp
  | cons kv t ih =>
    rw [List.foldl_cons, ih (insStep d kv)]
    have h2 : dictLookup (insStep d kv) k
        = ((List.find? (fun p => p.1 == k) [(kv.1, kv.2)]).map Prod.snd).or (dictLookup d k) := by
      show dictLookup (dictInsert d kv.1 kv.2) k = _
      rw [dictLookup_dictInsert]
      by_cases hk : kv.1 = k
      · simp [List.find?_cons, hk]
      · simp [List.find?_cons, hk]
    rw [h2, ← option_or_assoc, ← option_map_or, List.reverse_cons, List.find?_append]

/-- Python `max` over a non-empty list is the fold of the binary max. -/
theorem maxQ_eq_foldl (m : ℚ) (t : List ℚ) : maxQ m t = t.foldl max m := by
  induction t generalizing m with
  | nil => rfl
  | cons q l ih =>
    show maxQ (if q > m then q else m) l = List.foldl max (max m q) l
    rw [ih]
    rcases le_or_lt q m with h | h
    · rw [if_neg (not_lt.mpr h), max_eq_left h]
    · rw [if_pos h, max_eq_right h.le]

/-- When every key is a non-null string and every `SCC-` record has a
non-null label, the core-clock loop completes without an exception and
collects exactly the spec-side clock candidates. -/
theorem collectFreqs_eq (d : Dict) (h1 : wellKeyed d = true) (h2 : sccLabelled d = true) :
    collectFreqs d = .ok (clockVals d) := by
  induction d with
  | nil => rfl
  | cons kv t ih =>
    obtain ⟨k, r⟩ := kv
    simp only [wellKeyed, List.all_cons, Bool.and_eq_true] at h1
    simp only [sccLabelled, List.all_cons, Bool.and_eq_true] at h2
    have iht := ih h1.2 h2.2
    cases k with
    | none => simp at h1
    | some s =>
      by_cases hs : strStarts s "SCC-" = true
      · have hl : r.label.isSome = true := by
          have hh := h2.1
          simp [hs] at hh
          exact hh
        obtain ⟨lab, hlab⟩ := Option.isSome_iff_exists.mp hl
        by_cases hc : strHasSub lab "Clock" = true
        · cases hv : r.value.bind pyFloatOfString with
          | some q =>
            have hstep : collectFreqs ((some s, r) :: t)
                = (collectFreqs t).map (fun l => q :: l) := by
              simp [collectFreqs, hs, hlab, hc, hv]
            have hcv : clockVals ((some s, r) :: t) = q :: clockVals t := by
              simp [clockVals, List.filterMap_cons, hs, hlab, hc, hv]
            rw [hstep, iht, hcv]
            rfl
          | none =>
            have hstep : collectFreqs ((some s, r) :: t) = collectFreqs t := by
              simp [collectFreqs, hs, hlab, hc, hv]
            have hcv : clockVals ((some s, r) :: t) = clockVals t := by
              simp [clockVals, List.filterMap_cons, hs, hlab, hc, hv]
            rw [hstep, iht, hcv]
        · have hstep : collectFreqs ((some s, r) :: t) = collectFreqs t := by
            simp [collectFreqs, hs, hlab, hc]
          have hcv : clockVals ((some s, r) :: t) = clockVals t := by
            simp [clockVals, List.filterMap_cons, hs, hlab, hc]
          rw [hstep, iht, hcv]
      · have hstep : collectFreqs ((some s, r) :: t) = collectFreqs t := by
          simp [collectFreqs, hs]
        have hcv : clockVals ((some s, r) :: t) = clockVals t := by
          simp [clockVals, List.filterMap_cons, hs]
        rw [hstep, iht, hcv]

/-- The numeric resolution of a sensor id does not depend on the cache
state the call starts from. -/
theorem get_sensor_value_fst (acq : Acq) (st st' : CacheSt) (sensor_id : String) :
    (get_sensor_value acq st sensor_id).1 = (get_sensor_value acq st' sensor_id).1 := by
  cases acq with
  | ok elems =>
    simp only [get_sensor_value, read_aida64_shared_memory]
  | accessDenied => rfl
  | notFound => rfl
  | otherOsError code => rfl
  | mapFail => rfl
  | malformedPayload => rfl

/-- The string resolution of a sensor id does not depend on the cache
state the call starts from. -/
theorem get_sensor_string_fst (acq : Acq) (st st' : CacheSt) (sensor_id : String) :
    (get_sensor_string acq st sensor_id).1 = (get_sensor_string acq st' sensor_id).1 := by
  cases acq with
  | ok elems =>
    simp only [get_sensor_string, read_aida64_shared_memory]
  | accessDenied => rfl
  | notFound => rfl
  | otherOsError code => rfl
  | mapFail => rfl
  | malformedPayload => rfl

/-! The frozen claims. -/

unseal Rat.mul Rat.add Rat.inv Rat.sub in
/-- C1: the claim says every category facade query returns a value of its
declared shape and never raises, including on a payload where both
`SUSEDVMEM` and `SFREEVMEM` parse to 0.  The code violates this:
`Gpu.stats` computes `used_mem / total_mem` with `total_mem = 0 + 0` and
the unguarded float division raises `ZeroDivisionError` out of the
facade. -/
theorem c1_gpu_stats_raises_on_zero_vmem :
    (Gpu.stats (.ok exZeroVMem) st0).1 = .error .zeroDivisionError := by
  decide

/-- C2: if the shared-memory acquisition fails for any reason (open
fails, map fails, or the payload is not well-formed markup), every
`get_sensor_value` call returns NaN and every `get_sensor_string` call
returns the empty string, for every sensor id; both functions are total,
so no exception propagates. -/
theorem c2_failed_acquisition_returns_sentinels (acq : Acq) (h : acq.failed = true)
    (st : CacheSt) (sensor_id : String) :
    (get_sensor_value acq st sensor_id).1 = .nan ∧
    (get_sensor_string acq st sensor_id).1 = "" := by
  cases acq
  case ok elems => simp [Acq.failed] at h
  all_goals exact ⟨rfl, rfl⟩

/-- C2 witness: the not-found failure with a concrete sensor id. -/
theorem c2_witness :
    Acq.failed .notFound = true ∧
    ((get_sensor_value .notFound st0 "SCPUUTI").1 = .nan ∧
     (get_sensor_string .notFound st0 "SCPUUTI").1 = "") :=
  ⟨rfl, c2_failed_acquisition_returns_sentinels .notFound rfl st0 "SCPUUTI"⟩

/-- C3 counterexample: the claim says a failed cycle always leaves the
cache holding an empty table with validity false.  In the code a failed
cycle only clears the validity flag: after a successful cycle over
`exPrev` followed by a not-found failure, the cache still holds the
previous cycle's non-empty table. -/
theorem c3_counterexample :
    (read_aida64_shared_memory .notFound
        ((read_aida64_shared_memory (.ok exPrev) st0).2)).2.table ≠ [] ∧
    (read_aida64_shared_memory .notFound
        ((read_aida64_shared_memory (.ok exPrev) st0).2)).2.valid = false := by
  decide

/-- C3 amended: a failed acquisition cycle returns an empty table to its
caller and sets validity to false, but leaves the cached table exactly as
the previous cycle left it (it is not emptied). -/
theorem c3_amended_failed_cycle (acq : Acq) (h : acq.failed = true) (st : CacheSt) :
    (read_aida64_shared_memory acq st).1 = [] ∧
    (read_aida64_shared_memory acq st).2.valid = false ∧
    (read_aida64_shared_memory acq st).2.table = st.table := by
  cases acq
  case ok elems => simp [Acq.failed] at h
  all_goals exact ⟨rfl, rfl, rfl⟩

/-- C3 amended witness: a not-found failure over a non-trivial prior
cache state. -/
theorem c3_amended_witness :
    Acq.failed .notFound = true ∧
    ((read_aida64_shared_memory .notFound
        ⟨[(some "A", ⟨"sys", some "l", some "1"⟩)], true⟩).1 = [] ∧
     (read_aida64_shared_memory .notFound
        ⟨[(some "A", ⟨"sys", some "l", some "1"⟩)], true⟩).2.valid = false ∧
     (read_aida64_shared_memory .notFound
        ⟨[(some "A", ⟨"sys", some "l", some "1"⟩)], true⟩).2.table
       = (⟨[(some "A", ⟨"sys", some "l", some "1"⟩)], true⟩ : CacheSt).table) :=
  ⟨rfl, c3_amended_failed_cycle .notFound rfl ⟨[(some "A", ⟨"sys", some "l", some "1"⟩)], true⟩⟩

/-- C4 counterexample: the claim says a payload with N valid records
parses to a table with exactly N entries.  `exDup` has two valid records
(sharing one id), yet the parsed table has a single entry. -/
theorem c4_counterexample :
    (validRecords exDup).length = 2 ∧ (parseTable exDup).length = 1 := by
  decide

/-- C4 amended: for a payload whose valid records carry pairwise-distinct
ids, the parsed table has exactly one entry per valid record, keyed by
the declared ids in order; malformed records (missing one of the three
child fields) are skipped and do not abort the parse.  (With duplicate
ids among the valid records the table is smaller: later records
overwrite earlier ones.) -/
theorem c4_amended_parse_counts (elems : List Elem)
    (h : ((validRecords elems).map Prod.fst).Nodup) :
    (parseTable elems).map Prod.fst = (validRecords elems).map Prod.fst ∧
    (parseTable elems).length = (validRecords elems).length := by
  have hk := foldl_insStep_keys (validRecords elems) [] h (by intro k hk; simp)
  rw [parseTable_eq]
  constructor
  · simpa using hk
  · have hlen := congrArg List.length hk
    simpa [List.length_map] using hlen

/-- C4 amended witness: two valid distinct-id records plus one malformed
record (no `value` child); the table has exactly the two declared ids. -/
theorem c4_witness :
    ((validRecords exMixed).map Prod.fst).Nodup ∧
    ((parseTable exMixed).map Prod.fst = (validRecords exMixed).map Prod.fst ∧
     (parseTable exMixed).length = (validRecords exMixed).length) ∧
    (validRecords exMixed).map Prod.fst = [some "A", some "C"] ∧
    exMixed.length = 3 :=
  ⟨by decide, c4_amended_parse_counts exMixed (by decide), by decide, by decide⟩

/-- C5 counterexample: the claim says the record occurring last in
document order wins for a duplicated id.  In `exCross` the `sys` element
is last in document order, but the parse runs category loops in the fixed
order sys, temp, fan, volt, pwr, so the `pwr` record (first in document
order) is written last and wins. -/
theorem c5_counterexample :
    dictLookup (parseTable exCross) (some "X") = some ⟨"pwr", some "lp", some "1"⟩ ∧
    dictLookup (parseTable exCross) (some "X") ≠ some ⟨"sys", some "ls", some "2"⟩ := by
  decide

/-- C5 amended: for a duplicated id the record written last in the
parse's processing order wins, where the processing order is
category-major (sys, temp, fan, volt, pwr) with document order only
within a category: lookup returns the last entry of `validRecords` (that
processing order) carrying the key. -/
theorem c5_amended_last_write_wins (elems : List Elem) (k : Key) :
    dictLookup (parseTable elems) k
      = ((validRecords elems).reverse.find? (fun kv => kv.1 == k)).map Prod.snd := by
  rw [parseTable_eq, dictLookup_foldl_insStep]
  have hnil : dictLookup ([] : Dict) k = none := rfl
  rw [hnil]
  cases ((validRecords elems).reverse.find? (fun kv => kv.1 == k)) <;> rfl

/-- C6 counterexample: the claim says the parsed table never contains a
record keyed by a null or empty id, even when an id child is present but
empty.  `exNullId` has exactly such an element, and the parsed table's
only key is the null id. -/
theorem c6_counterexample :
    (parseTable exNullId).map Prod.fst = [none] := by
  decide

/-- C6 amended: every key of the parsed table is the declared id text of
some valid record; the table is free of null/empty ids only when every
valid record declares a non-null, non-empty id.  An id child that is
present but empty produces a record keyed by the null id. -/
theorem c6_amended_keys (elems : List Elem)
    (h : ∀ kv ∈ validRecords elems, kv.1 ≠ none ∧ kv.1 ≠ some "") :
    ∀ kv ∈ parseTable elems, kv.1 ≠ none ∧ kv.1 ≠ some "" := by
  intro kv hkv
  rw [parseTable_eq] at hkv
  rcases mem_foldl_insStep (validRecords elems) [] kv hkv with h1 | h1
  · simp at h1
  · exact h kv h1

/-- C6 amended witness: a payload whose ids are all non-empty yields a
table with no null/empty key. -/
theorem c6_witness :
    (∀ kv ∈ validRecords exPrev, kv.1 ≠ none ∧ kv.1 ≠ some "") ∧
    (∀ kv ∈ parseTable exPrev, kv.1 ≠ none ∧ kv.1 ≠ some "") :=
  ⟨by decide, c6_amended_keys exPrev (by decide)⟩

/-- C7 counterexample: the claim says `processor.frequency()` returns the
NaN sentinel when no record yields a numeric clock.  On `exNullId`
(a record keyed by a null id, no `SCPUCLK`), the loop evaluates
`sensor_id.startswith('SCC-')` on `None` and raises `AttributeError`
instead of returning the sentinel. -/
theorem c7_counterexample :
    (Cpu.frequency (.ok exNullId) st0).1 = .error .attributeError ∧
    (Cpu.frequency (.ok exNullId) st0).1 ≠ .ok .nan := by
  decide

/-- C7 amended: provided every key of the parsed table is a non-null
string and every `SCC-` record has a non-null label (otherwise the call
raises), `processor.frequency()` resolves as the claim says: a numeric
`SCPUCLK` is returned directly; otherwise the maximum over the numeric
values of records whose id starts with `SCC-` and whose label contains
`Clock`; otherwise the NaN sentinel. -/
theorem c7_amended_frequency (elems : List Elem)
    (h1 : wellKeyed (parseTable elems) = true)
    (h2 : sccLabelled (parseTable elems) = true) (st : CacheSt) :
    (∀ q : ℚ, (get_sensor_value (.ok elems) st "SCPUCLK").1 = .num q →
        (Cpu.frequency (.ok elems) st).1 = .ok (.num q)) ∧
    ((get_sensor_value (.ok elems) st "SCPUCLK").1 = .nan →
      (clockVals (parseTable elems) = [] → (Cpu.frequency (.ok elems) st).1 = .ok .nan) ∧
      (∀ q t, clockVals (parseTable elems) = q :: t →
        (Cpu.frequency (.ok elems) st).1 = .ok (.num (t.foldl max q)))) := by
  constructor
  · intro q hq
    simp [Cpu.frequency, hq, PyF.isnan]
  · intro hn
    have hcf := collectFreqs_eq (parseTable elems) h1 h2
    constructor
    · intro hempty
      simp [Cpu.frequency, hn, PyF.isnan, read_aida64_shared_memory, hcf, hempty]
    · intro q t hct
      simp [Cpu.frequency, hn, PyF.isnan, read_aida64_shared_memory, hcf, hct,
        maxQ_eq_foldl]

unseal Rat.mul Rat.add Rat.inv Rat.sub in
/-- C7 amended witness: the max-of-cores fallback at the spec's example,
3200 and 3600 MHz per-core clocks and no `SCPUCLK`, yielding 3600. -/
theorem c7_witness :
    wellKeyed (parseTable exFreq) = true ∧
    sccLabelled (parseTable exFreq) = true ∧
    (Cpu.frequency (.ok exFreq) st0).1 = .ok (.num 3600) := by
  refine ⟨by decide, by decide, ?_⟩
  have h :=
    ((c7_amended_frequency exFreq (by decide) (by decide) st0).2 (by decide)).2
      3200 [3600] (by decide)
  rw [h]
  norm_num

/-- C8: `memory.virtual_used()` is `int(SUSEDMEM * 1024 * 1024)`: for a
numeric `SUSEDMEM` of q megabytes it returns the truncation of
`q * 1024 * 1024`, which is exactly `q * 1024 * 1024` whenever that
product is an integer (in particular for whole-megabyte payloads), and it
returns 0 when `SUSEDMEM` is absent or non-numeric (NaN resolution). -/
theorem c8_virtual_used (acq : Acq) (st : CacheSt) :
    (∀ q : ℚ, (get_sensor_value acq st "SUSEDMEM").1 = .num q →
        (Memory.virtual_used acq st).1 = pyTrunc (q * 1024 * 1024) ∧
        ((q * 1024 * 1024).den = 1 →
          (Memory.virtual_used acq st).1 = (q * 1024 * 1024).num)) ∧
    ((get_sensor_value acq st "SUSEDMEM").1 = .nan →
        (Memory.virtual_used acq st).1 = 0) := by
  constructor
  · intro q hq
    have h1 : (Memory.virtual_used acq st).1 = pyTrunc (q * 1024 * 1024) := by
      simp [Memory.virtual_used, hq]
    refine ⟨h1, fun hden => ?_⟩
    rw [h1]
    unfold pyTrunc
    rw [hden]
    exact Int.tdiv_one _
  · intro h
    simp [Memory.virtual_used, h]

unseal Rat.mul Rat.add Rat.inv Rat.sub in
/-- C8 witness: the spec's example, `SUSEDMEM = "1024"`, resolves to 1024
and yields exactly 1073741824 bytes. -/
theorem c8_witness :
    (get_sensor_value (.ok exMem) st0 "SUSEDMEM").1 = .num 1024 ∧
    ((1024 : ℚ) * 1024 * 1024).den = 1 ∧
    (Memory.virtual_used (.ok exMem) st0).1 = 1073741824 := by
  have h1 : (get_sensor_value (.ok exMem) st0 "SUSEDMEM").1 = .num 1024 := by decide
  have h2 : ((1024 : ℚ) * 1024 * 1024).den = 1 := by decide
  have h3 := ((c8_virtual_used (.ok exMem) st0).1 1024 h1).2 h2
  refine ⟨h1, h2, ?_⟩
  rw [h3]
  decide

/-- C9: with the backing payload (acquisition outcome) unchanged,
resolving the same sensor id twice in succession yields identical
results, for both the numeric and the string resolution: the value
returned does not depend on the cache state the first call left behind. -/
theorem c9_idempotent_resolution (acq : Acq) (st : CacheSt) (sensor_id : String) :
    (get_sensor_value acq ((get_sensor_value acq st sensor_id).2) sensor_id).1
      = (get_sensor_value acq st sensor_id).1 ∧
    (get_sensor_string acq ((get_sensor_string acq st sensor_id).2) sensor_id).1
      = (get_sensor_string acq st sensor_id).1 :=
  ⟨get_sensor_value_fst acq _ st sensor_id, get_sensor_string_fst acq _ st sensor_id⟩

/-- C10: `processor.percentage(interval)` ignores its interval argument
entirely: for any two interval values the call returns the same result
(and the same cache state), depending only on the backing payload's
`SCPUUTI` record; no sampling over the interval takes place. -/
theorem c10_percentage_ignores_interval (i1 i2 : ℚ) (acq : Acq) (st : CacheSt) :
    Cpu.percentage i1 acq st = Cpu.percentage i2 acq st := rfl

end Aida64
